import Mathlib

/-!
Verification of the Content Generation Client of the
`wissen-handeln-website` repository.

The embedding follows `src/lib/aiContentGenerator.ts` (class
`AIContentGenerator`) and the `RateLimiter` class shown in the
repository documentation.

Modelling conventions:
* JavaScript `Date.now()` is an explicit `now : Int` parameter
  (milliseconds); every use of the clock inside one call sees the same
  value.
* The upstream OpenAI completion is an external input.  It is modelled
  by what the completion call would deliver: the call may throw
  (`UpstreamResult.threw`), or complete with a message whose text is
  falsy (`CompletionText.absent`), is not valid JSON so that
  `JSON.parse` throws (`CompletionText.invalidJson`), or parses to a
  JSON value (`CompletionText.json j`).
* JavaScript runtime values that appear in a `GeneratedContent` are
  modelled by the `Json` type; the extra constructor `Json.undefined`
  represents the JavaScript value `undefined`, which property access on
  an object yields for a missing key.  Property access on `null` (or
  `undefined`) throws a `TypeError`, which the model reflects.
* Exceptions are modelled with `Except String`; the `try`/`catch` of
  `generateContent` becomes a `match` on the result of the `try` block.
* The `Map` holding the cache is an association list with
  `Map.set`/`Map.get`/`Map.delete` semantics.
-/

namespace WissenHandeln

mutual

/-- JavaScript/JSON runtime values, as far as the client observes them.
`undefined` is the JavaScript `undefined` (never produced by `JSON.parse`,
only by property access on an object missing the key).  Arrays and
objects are mutual inductives so that equality stays decidable. -/
inductive Json where
  | null
  | bool (b : Bool)
  | num (n : Int)
  | str (s : String)
  | arr (elems : JsonArr)
  | obj (fields : JsonObj)
  | undefined

/-- A JSON array of values. -/
inductive JsonArr where
  | nil
  | cons (head : Json) (tail : JsonArr)

/-- A JSON object: an ordered sequence of key/value fields. -/
inductive JsonObj where
  | nil
  | cons (key : String) (value : Json) (tail : JsonObj)

end

deriving instance DecidableEq for Json, JsonArr, JsonObj

/-- Build a JSON array from a list of elements. -/
def JsonArr.ofList : List Json → JsonArr
  | [] => .nil
  | x :: xs => .cons x (JsonArr.ofList xs)

/-- Number of elements of a JSON array. -/
def JsonArr.length : JsonArr → Nat
  | .nil => 0
  | .cons _ tail => tail.length + 1

/-- Field lookup in a JSON object (objects produced by `JSON.parse`
have distinct keys); `undefined` when the key is missing. -/
def JsonObj.lookupField : JsonObj → String → Json
  | .nil, _ => .undefined
  | .cons k v rest, key => if k = key then v else rest.lookupField key

/-- JavaScript property access `j[k]` for the values `JSON.parse` can
produce: on an object it yields the field or `undefined`; on other
non-nullish values it yields `undefined`.  (Access on `null`/`undefined`
throws and is handled at the call site.) -/
def Json.getField : Json → String → Json
  | .obj fields, k => fields.lookupField k
  | _, _ => .undefined

/-- The `ContentGenerationOptions.type` from the source. -/
inductive ContentType where
  | blogPost
  | serviceDescription
  | aboutSection
  | caseStudy
deriving DecidableEq

/-- JSON.stringify serialization of a content type. -/
def ContentType.toStr : ContentType → String
  | .blogPost => "blog-post"
  | .serviceDescription => "service-description"
  | .aboutSection => "about-section"
  | .caseStudy => "case-study"

/-- The `ContentGenerationOptions.tone` from the source. -/
inductive Tone where
  | professional
  | conversational
  | academic
deriving DecidableEq

def Tone.toStr : Tone → String
  | .professional => "professional"
  | .conversational => "conversational"
  | .academic => "academic"

/-- The `ContentGenerationOptions.language` from the source. -/
inductive Language where
  | de
  | en
deriving DecidableEq

def Language.toStr : Language → String
  | .de => "de"
  | .en => "en"

/-- The `ContentGenerationOptions` interface: `tone`, `maxTokens` and
`language` are optional. -/
structure ContentGenerationOptions where
  topic : String
  type : ContentType
  tone : Option Tone := none
  maxTokens : Option Int := none
  language : Option Language := none
deriving DecidableEq

/-- The `GeneratedContent` interface.  Field values produced by parsing
the upstream reply are raw JavaScript values, hence `Json`;
`generatedAt` is the `Date` creation time in milliseconds. -/
structure GeneratedContent where
  title : Json
  content : Json
  excerpt : Json
  keywords : Json
  generatedAt : Int
deriving DecidableEq

/-- One value of the cache `Map`: `{ content, timestamp }`. -/
structure CacheEntry where
  content : GeneratedContent
  timestamp : Int
deriving DecidableEq

/-- The cache `Map<string, {content, timestamp}>` as an association
list. -/
abbrev Cache := List (String × CacheEntry)

/-- The `Map.prototype.get`. -/
def mapGet (m : Cache) (k : String) : Option CacheEntry :=
  ((m.find? (fun p => p.1 = k)).map Prod.snd)

/-- The `Map.prototype.set`: overwrite an existing key in place, else append. -/
def mapSet (m : Cache) (k : String) (v : CacheEntry) : Cache :=
  match m with
  | [] => [(k, v)]
  | p :: rest => if p.1 = k then (k, v) :: rest else p :: mapSet rest k v

/-- The `Map.prototype.delete`. -/
def mapDelete (m : Cache) (k : String) : Cache :=
  m.filter (fun p => p.1 ≠ k)

/-- Mutable state of an `AIContentGenerator` instance: whether an
OpenAI client was constructed (an API key was configured), the cache
map, and the cache TTL in milliseconds. -/
structure GenState where
  openai : Bool
  cache : Cache
  cacheTTL : Int
deriving DecidableEq

/-- JSON string escaping used by `JSON.stringify` for the characters
that can occur here. -/
def jsonEscapeChar (c : Char) : String :=
  if c = '\\' then ("\\\\")
  else if c = '"' then ("\\\"")
  else if c = '\n' then ("\\n")
  else if c = '\t' then ("\\t")
  else if c = '\r' then ("\\r")
  else String.singleton c

/-- The `JSON.stringify` of a string. -/
def jsonStringifyStr (s : String) : String :=
  "\"" ++ String.join (s.toList.map jsonEscapeChar) ++ "\""

/-- The `getCacheKey`: `JSON.stringify` of the object holding exactly
`topic`, `type`, `tone || "professional"` and `language || "de"`, in
that key order.  `maxTokens` is not serialized. -/
def getCacheKey (options : ContentGenerationOptions) : String :=
  "\x7b\"topic\":" ++ jsonStringifyStr options.topic ++
  ",\"type\":" ++ jsonStringifyStr options.type.toStr ++
  ",\"tone\":" ++ jsonStringifyStr (options.tone.getD .professional).toStr ++
  ",\"language\":" ++ jsonStringifyStr (options.language.getD .de).toStr ++
  "\x7d"

/-- The `getCachedContent`: returns the cached content if present and not
expired; an expired entry is deleted.  Returns the looked-up value
together with the (possibly mutated) cache map. -/
def getCachedContent (st : GenState) (now : Int) (key : String) :
    Option GeneratedContent × Cache :=
  match mapGet st.cache key with
  | none => (none, st.cache)
  | some cached =>
    if now - cached.timestamp > st.cacheTTL then
      (none, mapDelete st.cache key)
    else
      (some cached.content, st.cache)

/-- The `setCachedContent`: store `{ content, timestamp: Date.now() }`
under the key. -/
def setCachedContent (cache : Cache) (key : String)
    (content : GeneratedContent) (now : Int) : Cache :=
  mapSet cache key ⟨content, now⟩

/-- The German fallback body following the `# <topic>` heading. -/
def fallbackBodyDe : String :=
  "\n\nWir unterstützen Sie dabei, Ihr Wissen in konkretes Handeln umzusetzen.\n\n## Unsere Expertise\n\nMit langjähriger Erfahrung in der Beratung helfen wir Ihnen, maßgeschneiderte Lösungen für Ihre Herausforderungen zu entwickeln.\n\n## Ihr Nutzen\n\n- Praxisorientierte Strategien\n- Messbare Ergebnisse\n- Nachhaltige Veränderung\n\nKontaktieren Sie uns für ein unverbindliches Gespräch."

/-- The English fallback body following the `# <topic>` heading. -/
def fallbackBodyEn : String :=
  "\n\nWe support you in transforming knowledge into action.\n\n## Our Expertise\n\nWith years of experience in consulting, we help you develop tailored solutions for your challenges.\n\n## Your Benefits\n\n- Practice-oriented strategies\n- Measurable results\n- Sustainable change\n\nContact us for a no-obligation consultation."

/-- The `getFallbackContent`: deterministic templated content from `topic`
and `language || "de"`. -/
def getFallbackContent (options : ContentGenerationOptions) (now : Int) :
    GeneratedContent :=
  let language := options.language.getD .de
  match language with
  | .de =>
    { title := .str (options.topic ++ " - Professionelle Beratung")
      content := .str ("# " ++ options.topic ++ fallbackBodyDe)
      excerpt := .str ("Professionelle Beratung für " ++ options.topic ++
        " - Wir setzen Wissen in Handeln um.")
      keywords := .arr (JsonArr.ofList [.str ("Beratung"), .str ("Strategie"),
        .str ("Umsetzung"), .str options.topic, .str ("Expertise")])
      generatedAt := now }
  | .en =>
    { title := .str (options.topic ++ " - Professional Consulting")
      content := .str ("# " ++ options.topic ++ fallbackBodyEn)
      excerpt := .str ("Professional consulting for " ++ options.topic ++
        " - We turn knowledge into action.")
      keywords := .arr (JsonArr.ofList [.str ("Consulting"), .str ("Strategy"),
        .str ("Implementation"), .str options.topic, .str ("Expertise")])
      generatedAt := now }

/-- What the upstream completion's message text amounts to, classified
by how `JSON.parse` treats it: falsy (absent or empty), present but not
valid JSON, or parsing to a JSON value. -/
inductive CompletionText where
  | absent
  | invalidJson
  | json (j : Json)
deriving DecidableEq

/-- Outcome of the single `openai.chat.completions.create` call: the
call throws (network/API error), or completes with a message text. -/
inductive UpstreamResult where
  | threw
  | completed (text : CompletionText)
deriving DecidableEq

/-- The body of the `try` block of `generateContent` after the
completion call: check the text, `JSON.parse` it, read the four
properties of the parsed value, stamp `generatedAt`, cache, return.
Reading a property of `null`/`undefined` throws a `TypeError`.  No
check that the required keys are present is performed. -/
def tryGenerate (cacheKey : String) (upstream : UpstreamResult)
    (now : Int) (cache : Cache) :
    Except String (GeneratedContent × Cache) :=
  match upstream with
  | .threw => .error ("upstream call threw")
  | .completed .absent => .error ("No content generated")
  | .completed .invalidJson => .error ("SyntaxError: JSON.parse")
  | .completed (.json parsed) =>
    match parsed with
    | .null => .error ("TypeError: property access on null")
    | .undefined => .error ("TypeError: property access on undefined")
    | _ =>
      let generatedContent : GeneratedContent :=
        { title := parsed.getField ("title")
          content := parsed.getField ("content")
          excerpt := parsed.getField ("excerpt")
          keywords := parsed.getField ("keywords")
          generatedAt := now }
      .ok (generatedContent, setCachedContent cache cacheKey generatedContent now)

/-- Result of one `generateContent` call: the returned content, the
generator state after the call, and whether an upstream completion
request was issued. -/
structure GenOutcome where
  content : GeneratedContent
  state : GenState
  upstreamCalled : Bool
deriving DecidableEq

/-- The `generateContent`: cache lookup, no-client fallback, single
upstream attempt with catch-all fallback.  Only the successful upstream
path stores into the cache. -/
def generateContent (st : GenState) (options : ContentGenerationOptions)
    (now : Int) (upstream : UpstreamResult) : Except String GenOutcome :=
  let cacheKey := getCacheKey options
  match getCachedContent st now cacheKey with
  | (some cachedContent, cacheAfter) =>
    .ok ⟨cachedContent, { st with cache := cacheAfter }, false⟩
  | (none, cacheAfter) =>
    if !st.openai then
      .ok ⟨getFallbackContent options now, { st with cache := cacheAfter }, false⟩
    else
      match tryGenerate cacheKey upstream now cacheAfter with
      | .ok (generatedContent, cacheStored) =>
        .ok ⟨generatedContent, { st with cache := cacheStored }, true⟩
      | .error _ =>
        .ok ⟨getFallbackContent options now, { st with cache := cacheAfter }, true⟩

/-- The `clearCache`. -/
def clearCache (st : GenState) : GenState :=
  { st with cache := [] }

/-!
The token-bucket `RateLimiter` from the repository documentation.
Token counts and timestamps are JavaScript numbers; the model idealizes
them as rationals.  Timestamps are milliseconds.  `setTimeout(waitTime)`
is modelled by letting the wake-up time be an explicit parameter
`now2`, constrained in the theorems to be at least `waitTime` after the
call time (timers never fire early).
-/

/-- State of a `RateLimiter` instance. -/
structure RLState where
  tokens : ℚ
  maxTokens : ℚ
  refillRate : ℚ
  lastRefill : ℚ
deriving DecidableEq

namespace RateLimiter

/-- The constructor `new RateLimiter(requestsPerMinute)` at time `now`. -/
def init (requestsPerMinute : ℚ) (now : ℚ) : RLState :=
  { tokens := requestsPerMinute
    maxTokens := requestsPerMinute
    refillRate := requestsPerMinute / 60
    lastRefill := now }

/-- The `refill()` at time `now`:
`tokens = min(maxTokens, tokens + elapsedSeconds * refillRate)`. -/
def refill (s : RLState) (now : ℚ) : RLState :=
  let elapsed := (now - s.lastRefill) / 1000
  let tokensToAdd := elapsed * s.refillRate
  { s with tokens := min s.maxTokens (s.tokens + tokensToAdd), lastRefill := now }

/-- The `acquire()` entered at time `now1`; when the bucket is short the
caller sleeps for `waitTime = (1 - tokens) / refillRate * 1000`
milliseconds and resumes at time `now2`.  Returns the new state and the
wait it requested (`none` when it returned without suspending). -/
def acquire (s : RLState) (now1 now2 : ℚ) : RLState × Option ℚ :=
  let s1 := refill s now1
  if s1.tokens < 1 then
    let waitTime := (1 - s1.tokens) / s1.refillRate * 1000
    let s2 := refill s1 now2
    ({ s2 with tokens := s2.tokens - 1 }, some waitTime)
  else
    ({ s1 with tokens := s1.tokens - 1 }, none)

/-- The `k` back-to-back `acquire()` calls all issued at the same time `t`
(rapid calls: no time passes between them).  Returns the final state
and the list of waits requested. -/
def acquireSeq : Nat → ℚ → RLState → RLState × List (Option ℚ)
  | 0, _, s => (s, [])
  | k + 1, t, s =>
    let (s1, w) := acquire s t t
    let (s2, ws) := acquireSeq k t s1
    (s2, w :: ws)

end RateLimiter

/-- The invariant claimed for the limiter: the token count stays within
the bucket bounds. -/
def RLInv (s : RLState) : Prop :=
  0 ≤ s.tokens ∧ s.tokens ≤ s.maxTokens

/-- Well-formedness tying a state to its construction parameter `n`
(clocked states of a limiter built as `new RateLimiter(n)`). -/
def RLWf (n : ℚ) (s : RLState) : Prop :=
  s.maxTokens = n ∧ s.refillRate = n / 60

/-! ### Concrete sample inputs for witnesses and counterexamples -/

/-- A sample German blog-post request. -/
def sampleOptions : ContentGenerationOptions :=
  { topic := "Digitalisierung", type := .blogPost }

/-- A freshly constructed client with no API key configured
(`cacheTTL` is the source default of 3600 s in milliseconds). -/
def noKeyState : GenState :=
  { openai := false, cache := [], cacheTTL := 3600000 }

/-- A freshly constructed client with an API key configured. -/
def keyState : GenState :=
  { openai := true, cache := [], cacheTTL := 3600000 }

/-- A well-formed upstream reply carrying all four required keys. -/
def sampleReply : UpstreamResult :=
  .completed (.json (.obj (.cons ("title") (.str ("T")) (.cons ("content") (.str ("C"))
    (.cons ("excerpt") (.str ("E")) (.cons ("keywords") (.arr .nil) .nil))))))

/-- The content `generateContent` parses out of `sampleReply` at time 0. -/
def sampleParsed : GeneratedContent :=
  { title := .str ("T"), content := .str ("C"), excerpt := .str ("E"),
    keywords := .arr .nil, generatedAt := 0 }

/-! ### Helper lemmas on the cache map and the generator branches -/

theorem mapGet_nil (k : String) : mapGet ([] : Cache) k = none := rfl

theorem mapGet_mapSet_self (m : Cache) (k : String) (v : CacheEntry) :
    mapGet (mapSet m k v) k = some v := by
  induction m with
  | nil => simp [mapGet, mapSet]
  | cons p rest ih =>
    by_cases h : p.1 = k
    · simp [mapGet, mapSet, h]
    · simpa [mapGet, mapSet, h] using ih

theorem mapGet_mapDelete_self (m : Cache) (k : String) :
    mapGet (mapDelete m k) k = none := by
  induction m with
  | nil => rfl
  | cons p rest ih =>
    by_cases h : p.1 = k
    · simp only [mapDelete, mapGet, List.filter] at ih ⊢
      simp [h, ih]
    · simp only [mapDelete, mapGet, List.filter] at ih ⊢
      simp [h, ih]

/-- The `getCachedContent` on an absent key. -/
theorem getCachedContent_absent (st : GenState) (now : Int) (key : String)
    (h : mapGet st.cache key = none) :
    getCachedContent st now key = (none, st.cache) := by
  simp [getCachedContent, h]

/-- The `getCachedContent` on a present, unexpired key. -/
theorem getCachedContent_hit (st : GenState) (now : Int) (key : String)
    (entry : CacheEntry) (h : mapGet st.cache key = some entry)
    (hfresh : ¬ now - entry.timestamp > st.cacheTTL) :
    getCachedContent st now key = (some entry.content, st.cache) := by
  simp [getCachedContent, h, hfresh]

/-- The `getCachedContent` on a present, expired key deletes the entry. -/
theorem getCachedContent_expired (st : GenState) (now : Int) (key : String)
    (entry : CacheEntry) (h : mapGet st.cache key = some entry)
    (hexp : now - entry.timestamp > st.cacheTTL) :
    getCachedContent st now key = (none, mapDelete st.cache key) := by
  simp [getCachedContent, h, hexp]

/-- A lookup that reports a miss leaves no entry for the key in the
cache it returns (either none was there, or the expired one was
deleted). -/
theorem getCachedContent_miss_no_entry (st : GenState) (now : Int) (key : String)
    (cacheAfter : Cache)
    (h : getCachedContent st now key = (none, cacheAfter)) :
    mapGet cacheAfter key = none := by
  cases hget : mapGet st.cache key with
  | none =>
    rw [getCachedContent_absent st now key hget] at h
    cases h
    exact hget
  | some cached =>
    by_cases hexp : now - cached.timestamp > st.cacheTTL
    · rw [getCachedContent_expired st now key cached hget hexp] at h
      cases h
      exact mapGet_mapDelete_self _ _
    · rw [getCachedContent_hit st now key cached hget hexp] at h
      cases h

/-- The `generateContent` on a cache hit. -/
theorem generateContent_of_hit (st : GenState) (options : ContentGenerationOptions)
    (now : Int) (upstream : UpstreamResult) (c : GeneratedContent) (cacheAfter : Cache)
    (h : getCachedContent st now (getCacheKey options) = (some c, cacheAfter)) :
    generateContent st options now upstream = .ok ⟨c, { st with cache := cacheAfter }, false⟩ := by
  simp [generateContent, h]

/-- The `generateContent` on a miss with no OpenAI client: fallback, no
upstream attempt, no store. -/
theorem generateContent_of_miss_noclient (st : GenState)
    (options : ContentGenerationOptions) (now : Int) (upstream : UpstreamResult)
    (cacheAfter : Cache) (hcl : st.openai = false)
    (h : getCachedContent st now (getCacheKey options) = (none, cacheAfter)) :
    generateContent st options now upstream =
      .ok ⟨getFallbackContent options now, { st with cache := cacheAfter }, false⟩ := by
  simp [generateContent, h, hcl]

/-- The `generateContent` on a miss with a client and a successful `try`
block. -/
theorem generateContent_of_miss_ok (st : GenState)
    (options : ContentGenerationOptions) (now : Int) (upstream : UpstreamResult)
    (cacheAfter : Cache) (gc : GeneratedContent) (cacheStored : Cache)
    (hcl : st.openai = true)
    (h : getCachedContent st now (getCacheKey options) = (none, cacheAfter))
    (htry : tryGenerate (getCacheKey options) upstream now cacheAfter = .ok (gc, cacheStored)) :
    generateContent st options now upstream = .ok ⟨gc, { st with cache := cacheStored }, true⟩ := by
  simp [generateContent, h, hcl, htry]

/-- The `generateContent` on a miss with a client and a failing `try`
block: the exception is caught and fallback is returned, not stored. -/
theorem generateContent_of_miss_error (st : GenState)
    (options : ContentGenerationOptions) (now : Int) (upstream : UpstreamResult)
    (cacheAfter : Cache) (e : String) (hcl : st.openai = true)
    (h : getCachedContent st now (getCacheKey options) = (none, cacheAfter))
    (htry : tryGenerate (getCacheKey options) upstream now cacheAfter = .error e) :
    generateContent st options now upstream =
      .ok ⟨getFallbackContent options now, { st with cache := cacheAfter }, true⟩ := by
  simp [generateContent, h, hcl, htry]

/-- Inversion for a successful `try` block: the stored cache is the old
cache with the produced content stored under the key with timestamp
`now`, and the content is stamped `generatedAt = now`. -/
theorem tryGenerate_ok_inv (cacheKey : String) (upstream : UpstreamResult)
    (now : Int) (cache : Cache) (gc : GeneratedContent) (cacheStored : Cache)
    (h : tryGenerate cacheKey upstream now cache = .ok (gc, cacheStored)) :
    cacheStored = setCachedContent cache cacheKey gc now ∧ gc.generatedAt = now := by
  cases upstream with
  | threw => cases h
  | completed text =>
    cases text with
    | absent => cases h
    | invalidJson => cases h
    | json j =>
      cases j <;> simp [tryGenerate] at h <;>
        · obtain ⟨h1, h2⟩ := h
          subst h1
          subst h2
          exact ⟨rfl, rfl⟩

/-- Every branch of `generateContent` returns normally: the `catch`
swallows every exception of the `try` block and there is no throw
outside it. -/
theorem generateContent_total (st : GenState) (options : ContentGenerationOptions)
    (now : Int) (upstream : UpstreamResult) :
    ∃ out, generateContent st options now upstream = .ok out := by
  rcases hc : getCachedContent st now (getCacheKey options) with ⟨mc, cacheAfter⟩
  cases mc with
  | some c =>
    exact ⟨_, generateContent_of_hit st options now upstream c cacheAfter hc⟩
  | none =>
    cases hcl : st.openai with
    | false =>
      exact ⟨_, generateContent_of_miss_noclient st options now upstream cacheAfter hcl hc⟩
    | true =>
      cases htry : tryGenerate (getCacheKey options) upstream now cacheAfter with
      | ok pr =>
        obtain ⟨gc, cacheStored⟩ := pr
        exact ⟨_, generateContent_of_miss_ok st options now upstream cacheAfter gc
          cacheStored hcl hc htry⟩
      | error e =>
        exact ⟨_, generateContent_of_miss_error st options now upstream cacheAfter e
          hcl hc htry⟩

/-! ### Claim theorems -/

/-- C1: `generate()` never raises for the expected failure modes —
every combination of state, request, time and upstream behaviour
produces an `ok` result — and when no API credential is configured
(`openai = false`, cache necessarily empty on such an instance) it
returns fallback content immediately with no upstream attempt and an
unchanged state. -/
theorem generate_never_raises_and_no_credential_fallback (st : GenState)
    (options : ContentGenerationOptions) (now : Int) (upstream : UpstreamResult) :
    (∃ out, generateContent st options now upstream = .ok out) ∧
    (st.openai = false → st.cache = [] →
      generateContent st options now upstream =
        .ok ⟨getFallbackContent options now, st, false⟩) := by
  refine ⟨generateContent_total st options now upstream, ?_⟩
  intro hcl hcache
  have h0 : getCachedContent st now (getCacheKey options) = (none, st.cache) := by
    refine getCachedContent_absent st now _ ?_
    rw [hcache]
    rfl
  have h := generateContent_of_miss_noclient st options now upstream st.cache hcl h0
  exact h

/-- Witness for C1 at a concrete no-credential state and request. -/
theorem generate_never_raises_and_no_credential_fallback_witness :
    generateContent noKeyState sampleOptions 0 .threw =
      .ok ⟨getFallbackContent sampleOptions 0, noKeyState, false⟩ :=
  (generate_never_raises_and_no_credential_fallback noKeyState sampleOptions 0 .threw).2
    rfl rfl

/-- C2 counterexample: a cache-missing request served by fallback (no
API key configured) returns with the cache still empty — no cache entry
exists for the request fingerprint after the call, contrary to the
claim that a fallback generation creates a cache entry. -/
theorem fallback_not_cached_cex :
    generateContent noKeyState sampleOptions 0 .threw =
      .ok ⟨getFallbackContent sampleOptions 0, noKeyState, false⟩ ∧
    mapGet noKeyState.cache (getCacheKey sampleOptions) = none :=
  ⟨rfl, rfl⟩

/-- C2 amended: on a cache miss, only a successful upstream generation
stores its result (under the request fingerprint, with
`storedAt = now`); the two fallback paths — no credential, and a failed
`try` block — return fallback content without creating any cache entry
for the fingerprint. -/
theorem store_policy_upstream_only (st : GenState)
    (options : ContentGenerationOptions) (now : Int) (upstream : UpstreamResult)
    (cacheAfter : Cache)
    (hmiss : getCachedContent st now (getCacheKey options) = (none, cacheAfter)) :
    (∀ gc cacheStored, st.openai = true →
      tryGenerate (getCacheKey options) upstream now cacheAfter = .ok (gc, cacheStored) →
      generateContent st options now upstream =
        .ok ⟨gc, { st with cache := cacheStored }, true⟩ ∧
      mapGet cacheStored (getCacheKey options) = some ⟨gc, now⟩ ∧
      gc.generatedAt = now) ∧
    (st.openai = false →
      generateContent st options now upstream =
        .ok ⟨getFallbackContent options now, { st with cache := cacheAfter }, false⟩ ∧
      mapGet cacheAfter (getCacheKey options) = none) ∧
    (∀ e, st.openai = true →
      tryGenerate (getCacheKey options) upstream now cacheAfter = .error e →
      generateContent st options now upstream =
        .ok ⟨getFallbackContent options now, { st with cache := cacheAfter }, true⟩ ∧
      mapGet cacheAfter (getCacheKey options) = none) := by
  refine ⟨?_, ?_, ?_⟩
  · intro gc cacheStored hcl htry
    obtain ⟨hstore, hstamp⟩ := tryGenerate_ok_inv _ _ _ _ _ _ htry
    refine ⟨generateContent_of_miss_ok st options now upstream cacheAfter gc cacheStored
      hcl hmiss htry, ?_, hstamp⟩
    rw [hstore]
    exact mapGet_mapSet_self _ _ _
  · intro hcl
    exact ⟨generateContent_of_miss_noclient st options now upstream cacheAfter hcl hmiss,
      getCachedContent_miss_no_entry st now _ cacheAfter hmiss⟩
  · intro e hcl htry
    exact ⟨generateContent_of_miss_error st options now upstream cacheAfter e hcl hmiss htry,
      getCachedContent_miss_no_entry st now _ cacheAfter hmiss⟩

/-- Witness for the amended C2: a concrete successful upstream call
stores the parsed content under the fingerprint with timestamp 0. -/
theorem store_policy_upstream_only_witness :
    generateContent keyState sampleOptions 0 sampleReply =
      .ok ⟨sampleParsed,
        ⟨true, [(getCacheKey sampleOptions, ⟨sampleParsed, 0⟩)], 3600000⟩, true⟩ ∧
    mapGet [(getCacheKey sampleOptions, ⟨sampleParsed, 0⟩)] (getCacheKey sampleOptions) =
      some ⟨sampleParsed, 0⟩ :=
  have h := (store_policy_upstream_only keyState sampleOptions 0 sampleReply
    keyState.cache rfl).1 sampleParsed
    [(getCacheKey sampleOptions, ⟨sampleParsed, 0⟩)] rfl rfl
  ⟨h.1, h.2.1⟩

/-- C5 counterexample: an empty `topic` does not raise — the call
returns fallback content whose title is fabricated from the empty
topic. -/
theorem empty_topic_accepted_cex :
    generateContent noKeyState ⟨"", .blogPost, none, none, none⟩ 0 .threw =
      .ok ⟨getFallbackContent ⟨"", .blogPost, none, none, none⟩ 0, noKeyState, false⟩ ∧
    (getFallbackContent ⟨"", .blogPost, none, none, none⟩ 0).title =
      .str (" - Professionelle Beratung") :=
  ⟨rfl, rfl⟩

/-- C5 amended: `generate()` never raises, not even for an empty or
missing `topic`; malformed caller input silently degrades to fabricated
content instead of failing fast. -/
theorem generate_no_raise_empty_topic (st : GenState)
    (options : ContentGenerationOptions) (now : Int) (upstream : UpstreamResult)
    (_htopic : options.topic = "") :
    ∃ out, generateContent st options now upstream = .ok out :=
  generateContent_total st options now upstream

/-- Witness for the amended C5 at the empty topic. -/
theorem generate_no_raise_empty_topic_witness :
    ∃ out, generateContent noKeyState ⟨"", .blogPost, none, none, none⟩ 0 .threw = .ok out :=
  generate_no_raise_empty_topic noKeyState ⟨"", .blogPost, none, none, none⟩ 0 .threw rfl

/-- C3 counterexample: with no API key configured, two calls with the
same `(topic, type, tone, language)` tuple 1 second apart (well within
the 3600 s TTL) both fall back and return contents that differ in
`generatedAt` — they are not byte-identical, because fallback results
are never stored in the cache. -/
theorem cache_idempotence_cex :
    generateContent noKeyState sampleOptions 0 .threw =
      .ok ⟨getFallbackContent sampleOptions 0, noKeyState, false⟩ ∧
    generateContent noKeyState sampleOptions 1000 .threw =
      .ok ⟨getFallbackContent sampleOptions 1000, noKeyState, false⟩ ∧
    getFallbackContent sampleOptions 0 ≠ getFallbackContent sampleOptions 1000 := by
  refine ⟨rfl, rfl, ?_⟩
  intro h
  have hts := congrArg GeneratedContent.generatedAt h
  simp [getFallbackContent, sampleOptions] at hts

/-- C3 amended: when the first call stored its result in the cache
(which happens exactly when its upstream generation succeeded), a
second call with the same fingerprint within `cacheTTL` returns the
byte-identical `GeneratedContent` — the same `generatedAt` included —
leaves the state untouched and performs no upstream call. -/
theorem cache_idempotence_after_upstream_store (st : GenState)
    (options : ContentGenerationOptions) (t1 t2 : Int)
    (up1 up2 : UpstreamResult) (out1 : GenOutcome)
    (_h1 : generateContent st options t1 up1 = .ok out1)
    (hstored : mapGet out1.state.cache (getCacheKey options) = some ⟨out1.content, t1⟩)
    (httl : ¬ t2 - t1 > out1.state.cacheTTL) :
    generateContent out1.state options t2 up2 = .ok ⟨out1.content, out1.state, false⟩ := by
  have hhit : getCachedContent out1.state t2 (getCacheKey options) =
      (some out1.content, out1.state.cache) :=
    getCachedContent_hit out1.state t2 (getCacheKey options) ⟨out1.content, t1⟩ hstored httl
  exact generateContent_of_hit out1.state options t2 up2 out1.content out1.state.cache hhit

/-- Witness for the amended C3: a successful upstream generation at t=0
followed by a call at t=5 ms returns the identical cached content. -/
theorem cache_idempotence_after_upstream_store_witness :
    generateContent ⟨true, [(getCacheKey sampleOptions, ⟨sampleParsed, 0⟩)], 3600000⟩
        sampleOptions 5 .threw =
      .ok ⟨sampleParsed,
        ⟨true, [(getCacheKey sampleOptions, ⟨sampleParsed, 0⟩)], 3600000⟩, false⟩ :=
  cache_idempotence_after_upstream_store keyState sampleOptions 0 5 sampleReply .threw
    ⟨sampleParsed, ⟨true, [(getCacheKey sampleOptions, ⟨sampleParsed, 0⟩)], 3600000⟩, true⟩
    rfl rfl (by decide)

/-- C4 counterexample: an upstream completion that parses to the JSON
object with no fields at all — missing every required key — is not
turned into fallback: the call returns (and caches) a content whose
fields are all `undefined`. -/
theorem missing_keys_no_fallback_cex :
    generateContent keyState sampleOptions 0 (.completed (.json (.obj .nil))) =
      .ok ⟨⟨.undefined, .undefined, .undefined, .undefined, 0⟩,
        ⟨true, [(getCacheKey sampleOptions, ⟨⟨.undefined, .undefined, .undefined, .undefined, 0⟩, 0⟩)],
          3600000⟩, true⟩ ∧
    (⟨.undefined, .undefined, .undefined, .undefined, 0⟩ : GeneratedContent) ≠
      getFallbackContent sampleOptions 0 := by
  refine ⟨rfl, ?_⟩
  intro h
  have ht := congrArg GeneratedContent.title h
  simp [getFallbackContent, sampleOptions] at ht

/-- C4 amended: an absent completion text, unparseable JSON, or a
thrown upstream call all produce fallback content with no error
surfaced; but a completion that parses to an object is accepted as-is —
required keys are not checked, a missing key simply yields an
`undefined` field, and the result is cached and returned instead of
fallback. -/
theorem malformed_upstream_handling (st : GenState)
    (options : ContentGenerationOptions) (now : Int) (cacheAfter : Cache)
    (hcl : st.openai = true)
    (hmiss : getCachedContent st now (getCacheKey options) = (none, cacheAfter)) :
    (generateContent st options now .threw =
      .ok ⟨getFallbackContent options now, { st with cache := cacheAfter }, true⟩) ∧
    (generateContent st options now (.completed .absent) =
      .ok ⟨getFallbackContent options now, { st with cache := cacheAfter }, true⟩) ∧
    (generateContent st options now (.completed .invalidJson) =
      .ok ⟨getFallbackContent options now, { st with cache := cacheAfter }, true⟩) ∧
    (∀ (fields : JsonObj) (gc : GeneratedContent),
      gc = ⟨fields.lookupField ("title"), fields.lookupField ("content"),
            fields.lookupField ("excerpt"), fields.lookupField ("keywords"), now⟩ →
      generateContent st options now (.completed (.json (.obj fields))) =
        .ok ⟨gc, { st with cache := setCachedContent cacheAfter (getCacheKey options) gc now },
          true⟩) := by
  refine ⟨?_, ?_, ?_, ?_⟩
  · exact generateContent_of_miss_error st options now .threw cacheAfter _ hcl hmiss rfl
  · exact generateContent_of_miss_error st options now (.completed .absent) cacheAfter _
      hcl hmiss rfl
  · exact generateContent_of_miss_error st options now (.completed .invalidJson) cacheAfter _
      hcl hmiss rfl
  · intro fields gc hgc
    subst hgc
    exact generateContent_of_miss_ok st options now (.completed (.json (.obj fields)))
      cacheAfter _ _ hcl hmiss rfl

/-- Witness for the amended C4: unparseable JSON at a concrete state
yields fallback with no error. -/
theorem malformed_upstream_handling_witness :
    generateContent keyState sampleOptions 0 (.completed .invalidJson) =
      .ok ⟨getFallbackContent sampleOptions 0, keyState, true⟩ :=
  (malformed_upstream_handling keyState sampleOptions 0 keyState.cache rfl rfl).2.2.1

/-- C6 counterexample: two requests agreeing on the four fingerprint
fields but with `maxTokens` 100 vs 200 do produce the same cache key;
yet on a client with no API key the second call is not a cache hit —
the first call cached nothing, so the second call regenerates content
with a different `generatedAt`. -/
theorem maxTokens_second_call_cex :
    getCacheKey ⟨"Digitalisierung", .blogPost, none, some 100, none⟩ =
      getCacheKey ⟨"Digitalisierung", .blogPost, none, some 200, none⟩ ∧
    generateContent noKeyState ⟨"Digitalisierung", .blogPost, none, some 100, none⟩ 0 .threw =
      .ok ⟨getFallbackContent ⟨"Digitalisierung", .blogPost, none, some 100, none⟩ 0,
        noKeyState, false⟩ ∧
    generateContent noKeyState ⟨"Digitalisierung", .blogPost, none, some 200, none⟩ 1000 .threw =
      .ok ⟨getFallbackContent ⟨"Digitalisierung", .blogPost, none, some 200, none⟩ 1000,
        noKeyState, false⟩ ∧
    getFallbackContent ⟨"Digitalisierung", .blogPost, none, some 200, none⟩ 1000 ≠
      getFallbackContent ⟨"Digitalisierung", .blogPost, none, some 100, none⟩ 0 := by
  refine ⟨rfl, rfl, rfl, ?_⟩
  intro h
  have hts := congrArg GeneratedContent.generatedAt h
  simp [getFallbackContent] at hts

/-- C6 amended: `maxTokens` does not enter the fingerprint — any two
requests agreeing on topic, type, tone and language share the cache
key — and when the first call's result was stored (upstream success),
a second call differing only in `maxTokens` within `cacheTTL` is a
cache hit returning the cached first result with no upstream call. -/
theorem cache_key_ignores_maxTokens (o1 o2 : ContentGenerationOptions)
    (ht : o1.topic = o2.topic) (hty : o1.type = o2.type)
    (hto : o1.tone = o2.tone) (hl : o1.language = o2.language) :
    getCacheKey o1 = getCacheKey o2 ∧
    (∀ (out1 : GenOutcome) (t1 t2 : Int) (up2 : UpstreamResult),
      mapGet out1.state.cache (getCacheKey o1) = some ⟨out1.content, t1⟩ →
      ¬ t2 - t1 > out1.state.cacheTTL →
      generateContent out1.state o2 t2 up2 = .ok ⟨out1.content, out1.state, false⟩) := by
  have hkey : getCacheKey o1 = getCacheKey o2 := by
    unfold getCacheKey
    rw [ht, hty, hto, hl]
  refine ⟨hkey, ?_⟩
  intro out1 t1 t2 up2 hstored httl
  have hhit : getCachedContent out1.state t2 (getCacheKey o2) =
      (some out1.content, out1.state.cache) :=
    getCachedContent_hit out1.state t2 (getCacheKey o2) ⟨out1.content, t1⟩
      (hkey ▸ hstored) httl
  exact generateContent_of_hit out1.state o2 t2 up2 out1.content out1.state.cache hhit

/-- Witness for the amended C6: after a stored generation for
`maxTokens = 100`, the call with `maxTokens = 200` hits the cache. -/
theorem cache_key_ignores_maxTokens_witness :
    getCacheKey ⟨"Digitalisierung", .blogPost, none, some 100, none⟩ =
      getCacheKey ⟨"Digitalisierung", .blogPost, none, some 200, none⟩ ∧
    generateContent
        ⟨true, [(getCacheKey ⟨"Digitalisierung", .blogPost, none, some 100, none⟩,
          ⟨sampleParsed, 0⟩)], 3600000⟩
        ⟨"Digitalisierung", .blogPost, none, some 200, none⟩ 5 .threw =
      .ok ⟨sampleParsed,
        ⟨true, [(getCacheKey ⟨"Digitalisierung", .blogPost, none, some 100, none⟩,
          ⟨sampleParsed, 0⟩)], 3600000⟩, false⟩ :=
  have h := cache_key_ignores_maxTokens
    ⟨"Digitalisierung", .blogPost, none, some 100, none⟩
    ⟨"Digitalisierung", .blogPost, none, some 200, none⟩ rfl rfl rfl rfl
  ⟨h.1, h.2
    ⟨sampleParsed,
      ⟨true, [(getCacheKey ⟨"Digitalisierung", .blogPost, none, some 100, none⟩,
        ⟨sampleParsed, 0⟩)], 3600000⟩, true⟩ 0 5 .threw rfl (by decide)⟩

/-- C7 counterexample: on a client with no API key, a lookup of an
entry stored more than `cacheTTL` ago removes the stale entry and
regenerates by fallback — but no fresh entry is populated: the cache is
empty after the call, contrary to the claim. -/
theorem expired_entry_no_fresh_cex :
    generateContent ⟨false, [(getCacheKey sampleOptions, ⟨sampleParsed, 0⟩)], 3600000⟩
        sampleOptions 3600001 .threw =
      .ok ⟨getFallbackContent sampleOptions 3600001, ⟨false, [], 3600000⟩, false⟩ ∧
    mapGet ([] : Cache) (getCacheKey sampleOptions) = none :=
  ⟨rfl, rfl⟩

/-- C7 amended: an entry stored more than `cacheTTL` ago makes the next
lookup a miss and is removed from the map at that lookup (lazy
eviction); a fresh entry with `storedAt = now` is then populated when
the regeneration succeeds upstream, while a fallback regeneration (for
instance with no credential) leaves no entry for the fingerprint. -/
theorem lazy_expiry_eviction (st : GenState) (options : ContentGenerationOptions)
    (now : Int) (entry : CacheEntry)
    (hfound : mapGet st.cache (getCacheKey options) = some entry)
    (hexp : now - entry.timestamp > st.cacheTTL) :
    getCachedContent st now (getCacheKey options) =
      (none, mapDelete st.cache (getCacheKey options)) ∧
    mapGet (mapDelete st.cache (getCacheKey options)) (getCacheKey options) = none ∧
    (∀ up gc cacheStored, st.openai = true →
      tryGenerate (getCacheKey options) up now (mapDelete st.cache (getCacheKey options)) =
        .ok (gc, cacheStored) →
      generateContent st options now up = .ok ⟨gc, { st with cache := cacheStored }, true⟩ ∧
      mapGet cacheStored (getCacheKey options) = some ⟨gc, now⟩) ∧
    (∀ up, st.openai = false →
      generateContent st options now up =
        .ok ⟨getFallbackContent options now,
          { st with cache := mapDelete st.cache (getCacheKey options) }, false⟩) := by
  have hmiss := getCachedContent_expired st now (getCacheKey options) entry hfound hexp
  refine ⟨hmiss, mapGet_mapDelete_self _ _, ?_, ?_⟩
  · intro up gc cacheStored hcl htry
    obtain ⟨hstore, _⟩ := tryGenerate_ok_inv _ _ _ _ _ _ htry
    refine ⟨generateContent_of_miss_ok st options now up _ gc cacheStored hcl hmiss htry, ?_⟩
    rw [hstore]
    exact mapGet_mapSet_self _ _ _
  · intro up hcl
    exact generateContent_of_miss_noclient st options now up _ hcl hmiss

/-- Witness for the amended C7: a stale entry is evicted and a
successful upstream regeneration stores a fresh entry stamped with the
new time. -/
theorem lazy_expiry_eviction_witness :
    generateContent ⟨true, [(getCacheKey sampleOptions, ⟨sampleParsed, 0⟩)], 3600000⟩
        sampleOptions 3600001 sampleReply =
      .ok ⟨⟨.str ("T"), .str ("C"), .str ("E"), .arr .nil, 3600001⟩,
        ⟨true, [(getCacheKey sampleOptions,
          ⟨⟨.str ("T"), .str ("C"), .str ("E"), .arr .nil, 3600001⟩, 3600001⟩)], 3600000⟩, true⟩ ∧
    mapGet [(getCacheKey sampleOptions,
        ⟨⟨.str ("T"), .str ("C"), .str ("E"), .arr .nil, 3600001⟩, 3600001⟩)]
      (getCacheKey sampleOptions) =
      some ⟨⟨.str ("T"), .str ("C"), .str ("E"), .arr .nil, 3600001⟩, 3600001⟩ :=
  (lazy_expiry_eviction ⟨true, [(getCacheKey sampleOptions, ⟨sampleParsed, 0⟩)], 3600000⟩
      sampleOptions 3600001 ⟨sampleParsed, 0⟩ rfl (by decide)).2.2.1 sampleReply
    ⟨.str ("T"), .str ("C"), .str ("E"), .arr .nil, 3600001⟩
    [(getCacheKey sampleOptions,
      ⟨⟨.str ("T"), .str ("C"), .str ("E"), .arr .nil, 3600001⟩, 3600001⟩)] rfl rfl

/-- The token count after a `refill`. -/
theorem refill_tokens (s : RLState) (now : ℚ) :
    (RateLimiter.refill s now).tokens =
      min s.maxTokens (s.tokens + (now - s.lastRefill) / 1000 * s.refillRate) := rfl

/-- The `refill` does not change the bucket size. -/
theorem refill_maxTokens (s : RLState) (now : ℚ) :
    (RateLimiter.refill s now).maxTokens = s.maxTokens := rfl

/-- The `refill` does not change the refill rate. -/
theorem refill_refillRate (s : RLState) (now : ℚ) :
    (RateLimiter.refill s now).refillRate = s.refillRate := rfl

/-- The `refill` stamps `lastRefill` with the current time. -/
theorem refill_lastRefill (s : RLState) (now : ℚ) :
    (RateLimiter.refill s now).lastRefill = now := rfl

/-- Zeta-reduced equation for `refill`. -/
theorem refill_def (s : RLState) (now : ℚ) :
    RateLimiter.refill s now =
      { s with
          tokens := min s.maxTokens (s.tokens + (now - s.lastRefill) / 1000 * s.refillRate)
          lastRefill := now } := rfl

/-- Zeta-reduced equation for `acquire`. -/
theorem acquire_eq (s : RLState) (now1 now2 : ℚ) :
    RateLimiter.acquire s now1 now2 =
      if (RateLimiter.refill s now1).tokens < 1 then
        ({ RateLimiter.refill (RateLimiter.refill s now1) now2 with
            tokens := (RateLimiter.refill (RateLimiter.refill s now1) now2).tokens - 1 },
          some ((1 - (RateLimiter.refill s now1).tokens) /
            (RateLimiter.refill s now1).refillRate * 1000))
      else
        ({ RateLimiter.refill s now1 with
            tokens := (RateLimiter.refill s now1).tokens - 1 }, none) := rfl

/-- Refill preserves the configuration fields. -/
theorem refill_wf (n : ℚ) (s : RLState) (now : ℚ) (hwf : RLWf n s) :
    RLWf n (RateLimiter.refill s now) :=
  ⟨hwf.1, hwf.2⟩

/-- Refill with a monotone clock keeps the token count in `[0, n]`. -/
theorem refill_inv (n : ℚ) (hn : 1 ≤ n) (s : RLState) (now : ℚ)
    (hwf : RLWf n s) (hinv : RLInv s) (hmono : s.lastRefill ≤ now) :
    RLInv (RateLimiter.refill s now) := by
  obtain ⟨hmax, hrate⟩ := hwf
  obtain ⟨h0, h1⟩ := hinv
  have hadd : 0 ≤ (now - s.lastRefill) / 1000 * s.refillRate := by
    rw [hrate]
    apply mul_nonneg
    · exact div_nonneg (by linarith) (by norm_num)
    · have hn0 : (0:ℚ) ≤ n := by linarith
      positivity
  refine ⟨?_, ?_⟩
  · rw [refill_tokens]
    exact le_min (by linarith) (by linarith)
  · rw [refill_tokens, refill_maxTokens]
    exact min_le_left _ _

/-- C8: for a limiter built with `requestsPerMinute = n ≥ 1`, the
invariant `0 ≤ tokens ≤ n` holds after construction, after every
refill with a monotone clock, and after every `acquire` whose sleep (if
any) lasts at least the requested wait; the refill adds
`elapsedSeconds * (n/60)` tokens clamped at `n`, and each `acquire`
consumes exactly 1 token from the refilled count. -/
theorem rate_limiter_invariant (n : ℚ) (hn : 1 ≤ n) :
    (∀ t0 : ℚ, RLWf n (RateLimiter.init n t0) ∧ RLInv (RateLimiter.init n t0)) ∧
    (∀ (s : RLState) (now : ℚ), RLWf n s → RLInv s → s.lastRefill ≤ now →
      RLInv (RateLimiter.refill s now) ∧
      (RateLimiter.refill s now).tokens =
        min n (s.tokens + (now - s.lastRefill) / 1000 * (n / 60))) ∧
    (∀ (s : RLState) (now1 now2 : ℚ), RLWf n s → RLInv s → s.lastRefill ≤ now1 →
      ((RateLimiter.refill s now1).tokens < 1 →
        (1 - (RateLimiter.refill s now1).tokens) / (n / 60) * 1000 ≤ now2 - now1) →
      RLInv (RateLimiter.acquire s now1 now2).1 ∧
      (¬ (RateLimiter.refill s now1).tokens < 1 →
        (RateLimiter.acquire s now1 now2).1.tokens =
          (RateLimiter.refill s now1).tokens - 1) ∧
      ((RateLimiter.refill s now1).tokens < 1 →
        (RateLimiter.acquire s now1 now2).1.tokens =
          (RateLimiter.refill (RateLimiter.refill s now1) now2).tokens - 1)) := by
  have hnpos : (0:ℚ) < n := lt_of_lt_of_le zero_lt_one hn
  refine ⟨?_, ?_, ?_⟩
  · intro t0
    refine ⟨⟨rfl, rfl⟩, ?_, ?_⟩
    · show (0:ℚ) ≤ n
      linarith
    · show (n:ℚ) ≤ n
      exact le_rfl
  · intro s now hwf hinv hmono
    refine ⟨refill_inv n hn s now hwf hinv hmono, ?_⟩
    rw [refill_tokens, hwf.1, hwf.2]
  · intro s now1 now2 hwf hinv hmono hwait
    have hwf1 : RLWf n (RateLimiter.refill s now1) := refill_wf n s now1 hwf
    have hinv1 : RLInv (RateLimiter.refill s now1) := refill_inv n hn s now1 hwf hinv hmono
    by_cases hlt : (RateLimiter.refill s now1).tokens < 1
    · have hd : (1 - (RateLimiter.refill s now1).tokens) / (n / 60) * 1000 ≤ now2 - now1 :=
        hwait hlt
      have hr : (0:ℚ) < n / 60 := by positivity
      have hd2 : (1 - (RateLimiter.refill s now1).tokens) / (n / 60) ≤
          (now2 - now1) / 1000 := by linarith
      have hd3 : 1 - (RateLimiter.refill s now1).tokens ≤
          (now2 - now1) / 1000 * (n / 60) := (div_le_iff₀ hr).mp hd2
      have h2tok : (RateLimiter.refill (RateLimiter.refill s now1) now2).tokens =
          min n ((RateLimiter.refill s now1).tokens + (now2 - now1) / 1000 * (n / 60)) := by
        conv_lhs => rw [refill_tokens]
        rw [refill_maxTokens, refill_refillRate, refill_lastRefill, hwf.1, hwf.2]
      have h2ge : 1 ≤ (RateLimiter.refill (RateLimiter.refill s now1) now2).tokens := by
        rw [h2tok]
        exact le_min hn (by linarith)
      have h2le : (RateLimiter.refill (RateLimiter.refill s now1) now2).tokens ≤ n := by
        rw [h2tok]
        exact min_le_left _ _
      have hacq : (RateLimiter.acquire s now1 now2).1 =
          { RateLimiter.refill (RateLimiter.refill s now1) now2 with
            tokens := (RateLimiter.refill (RateLimiter.refill s now1) now2).tokens - 1 } := by
        rw [acquire_eq, if_pos hlt]
      rw [hacq]
      refine ⟨⟨?_, ?_⟩, fun h => absurd hlt h, fun _ => rfl⟩
      · show 0 ≤ (RateLimiter.refill (RateLimiter.refill s now1) now2).tokens - 1
        linarith
      · show (RateLimiter.refill (RateLimiter.refill s now1) now2).tokens - 1 ≤
          (RateLimiter.refill (RateLimiter.refill s now1) now2).maxTokens
        rw [refill_maxTokens, refill_maxTokens, hwf.1]
        linarith
    · have hacq : (RateLimiter.acquire s now1 now2).1 =
          { RateLimiter.refill s now1 with
            tokens := (RateLimiter.refill s now1).tokens - 1 } := by
        rw [acquire_eq, if_neg hlt]
      rw [hacq]
      push_neg at hlt
      have hle1 : (RateLimiter.refill s now1).tokens ≤ n := by
        have := hinv1.2
        rwa [refill_maxTokens, hwf.1] at this
      refine ⟨⟨?_, ?_⟩, fun _ => rfl, fun h => absurd h (not_lt.mpr hlt)⟩
      · show 0 ≤ (RateLimiter.refill s now1).tokens - 1
        linarith
      · show (RateLimiter.refill s now1).tokens - 1 ≤ (RateLimiter.refill s now1).maxTokens
        rw [refill_maxTokens, hwf.1]
        linarith

/-- Witness for C8: a limiter built with budget 10 satisfies the
invariant at construction and after an immediate `acquire`. -/
theorem rate_limiter_invariant_witness :
    RLInv (RateLimiter.init 10 0) ∧
    RLInv (RateLimiter.acquire (RateLimiter.init 10 0) 0 0).1 :=
  have h := rate_limiter_invariant 10 (by norm_num)
  ⟨(h.1 0).2,
    (h.2.2 (RateLimiter.init 10 0) 0 0 (h.1 0).1 (h.1 0).2 le_rfl
      (fun hlt => absurd hlt (by norm_num [RateLimiter.refill, RateLimiter.init]))).1⟩

/-- A run of `k` immediate `acquire()` calls on a bucket holding at
least `k` tokens never suspends and consumes exactly `k` tokens. -/
theorem acquireSeq_no_wait (n : ℚ) :
    ∀ (k : Nat) (t : ℚ) (s : RLState), s.maxTokens = n → s.refillRate = n / 60 →
      s.lastRefill = t → (k : ℚ) ≤ s.tokens → s.tokens ≤ n →
      RateLimiter.acquireSeq k t s =
        ({ s with tokens := s.tokens - k }, List.replicate k none) := by
  intro k
  induction k with
  | zero =>
    intro t s _ _ _ _ _
    simp only [RateLimiter.acquireSeq, Nat.cast_zero, sub_zero, List.replicate]
  | succ k ih =>
    intro t s hmax hrate hlast hk hle
    have hk1 : (1:ℚ) + k ≤ s.tokens := by
      push_cast at hk
      linarith
    have hletok : s.tokens ≤ s.maxTokens := by
      rw [hmax]
      exact hle
    have h1 : RateLimiter.refill s t = s := by
      rw [refill_def, ← hlast]
      simp [min_eq_right hletok]
    have h2 : RateLimiter.acquire s t t = ({ s with tokens := s.tokens - 1 }, none) := by
      rw [acquire_eq, h1]
      have hge : ¬ s.tokens < 1 := by
        push_neg
        have hk0 : (0:ℚ) ≤ (k:ℚ) := by positivity
        linarith
      rw [if_neg hge]
    have h3 := ih t { s with tokens := s.tokens - 1 } hmax hrate hlast
      (by show (k:ℚ) ≤ s.tokens - 1; linarith)
      (by show s.tokens - 1 ≤ n; linarith)
    simp only [RateLimiter.acquireSeq, h2, h3, List.replicate_succ, Prod.mk.injEq,
      RLState.mk.injEq, and_true, true_and]
    push_cast
    ring_nf

/-- C9: a limiter built with `maxTokens = n ≥ 1` serves `n` immediate
`acquire()` calls without suspending, draining the bucket to 0; the
`(n+1)`th call suspends for `(1 - tokens)/(n/60) * 1000 = 60000/n`
milliseconds (that is, `60/n` seconds), then refills — gaining exactly
the one needed token — consumes it and returns with 0 tokens: it
delays rather than rejects. -/
theorem rate_limiter_boundedness (n : Nat) (hn : 1 ≤ n) (t : ℚ) :
    RateLimiter.acquireSeq n t (RateLimiter.init n t) =
      ({ tokens := 0, maxTokens := (n:ℚ), refillRate := (n:ℚ) / 60, lastRefill := t },
        List.replicate n none) ∧
    RateLimiter.acquire
        { tokens := 0, maxTokens := (n:ℚ), refillRate := (n:ℚ) / 60, lastRefill := t }
        t (t + 60000 / n) =
      ({ tokens := 0, maxTokens := (n:ℚ), refillRate := (n:ℚ) / 60,
          lastRefill := t + 60000 / n },
        some ((60000 : ℚ) / n)) := by
  have hn1 : (1:ℚ) ≤ (n:ℚ) := by exact_mod_cast hn
  have hn0 : (n:ℚ) ≠ 0 := by linarith
  constructor
  · have h := acquireSeq_no_wait n n t (RateLimiter.init n t) rfl rfl rfl
      (le_refl (n:ℚ)) (le_refl (n:ℚ))
    rw [h]
    simp [RateLimiter.init]
  · have h1 : RateLimiter.refill
        { tokens := 0, maxTokens := (n:ℚ), refillRate := (n:ℚ) / 60, lastRefill := t } t =
        { tokens := 0, maxTokens := (n:ℚ), refillRate := (n:ℚ) / 60, lastRefill := t } := by
      rw [refill_def]
      dsimp only
      rw [sub_self, zero_div, zero_mul, add_zero,
        min_eq_right (by linarith : (0:ℚ) ≤ (n:ℚ))]
    have he : (t + 60000 / (n:ℚ) - t) / 1000 * ((n:ℚ) / 60) = 1 := by
      field_simp
      ring
    have h2 : RateLimiter.refill
        { tokens := 0, maxTokens := (n:ℚ), refillRate := (n:ℚ) / 60, lastRefill := t }
        (t + 60000 / n) =
        { tokens := 1, maxTokens := (n:ℚ), refillRate := (n:ℚ) / 60,
          lastRefill := t + 60000 / n } := by
      rw [refill_def]
      dsimp only
      rw [zero_add, he, min_eq_right hn1]
    have hw : (1 - (0:ℚ)) / ((n:ℚ) / 60) * 1000 = 60000 / n := by
      rw [sub_zero, one_div_div, div_mul_eq_mul_div]
      norm_num
    rw [acquire_eq, h1, h2]
    dsimp only
    rw [if_pos (show (0:ℚ) < 1 from by norm_num)]
    rw [show (1:ℚ) - 1 = 0 from by norm_num, hw]

/-- Witness for C9 at `n = 3`, `t = 0`: three immediate acquires pass
without waiting, the fourth waits 20000 ms (= 20 s = 60/3 s). -/
theorem rate_limiter_boundedness_witness :
    RateLimiter.acquireSeq 3 0 (RateLimiter.init ((3:Nat):ℚ) 0) =
      ({ tokens := 0, maxTokens := ((3:Nat):ℚ), refillRate := ((3:Nat):ℚ) / 60,
          lastRefill := 0 }, List.replicate 3 none) ∧
    RateLimiter.acquire
        { tokens := 0, maxTokens := ((3:Nat):ℚ), refillRate := ((3:Nat):ℚ) / 60,
          lastRefill := 0 } 0 (0 + 60000 / ((3:Nat):ℚ)) =
      ({ tokens := 0, maxTokens := ((3:Nat):ℚ), refillRate := ((3:Nat):ℚ) / 60,
          lastRefill := 0 + 60000 / ((3:Nat):ℚ) }, some (60000 / ((3:Nat):ℚ))) :=
  rate_limiter_boundedness 3 (by norm_num) 0

/-- C10: fallback content, `generatedAt` aside, is a fixed function of
`(topic, language)` alone: the German (or unspecified-language) title
is the topic followed by " - Professionelle Beratung", the English
title is the topic followed by " - Professional Consulting", the body
starts with the markdown heading `# ` followed by the topic, and the
keywords are exactly a five-element array whose fourth element is the
topic verbatim. -/
theorem fallback_shape (options : ContentGenerationOptions) (now : Int) :
    ((options.language = none ∨ options.language = some .de) →
      (getFallbackContent options now).title =
        .str (options.topic ++ " - Professionelle Beratung")) ∧
    (options.language = some .en →
      (getFallbackContent options now).title =
        .str (options.topic ++ " - Professional Consulting")) ∧
    (∃ rest : String, (getFallbackContent options now).content =
      .str ("# " ++ options.topic ++ rest)) ∧
    (∃ k1 k2 k3 k5 : Json,
      (getFallbackContent options now).keywords =
        .arr (JsonArr.ofList [k1, k2, k3, .str options.topic, k5]) ∧
      JsonArr.length (JsonArr.ofList [k1, k2, k3, .str options.topic, k5]) = 5) ∧
    (∀ (o2 : ContentGenerationOptions) (n2 : Int), options.topic = o2.topic →
      options.language = o2.language →
      (getFallbackContent options now).title = (getFallbackContent o2 n2).title ∧
      (getFallbackContent options now).content = (getFallbackContent o2 n2).content ∧
      (getFallbackContent options now).excerpt = (getFallbackContent o2 n2).excerpt ∧
      (getFallbackContent options now).keywords = (getFallbackContent o2 n2).keywords) := by
  refine ⟨?_, ?_, ?_, ?_, ?_⟩
  · rintro (h | h) <;> simp [getFallbackContent, h]
  · intro h
    simp [getFallbackContent, h]
  · rcases hl : options.language with _ | l
    · exact ⟨fallbackBodyDe, by simp [getFallbackContent, hl]⟩
    · cases l
      · exact ⟨fallbackBodyDe, by simp [getFallbackContent, hl]⟩
      · exact ⟨fallbackBodyEn, by simp [getFallbackContent, hl]⟩
  · rcases hl : options.language with _ | l
    · exact ⟨.str ("Beratung"), .str ("Strategie"), .str ("Umsetzung"), .str ("Expertise"),
        by simp [getFallbackContent, hl], rfl⟩
    · cases l
      · exact ⟨.str ("Beratung"), .str ("Strategie"), .str ("Umsetzung"), .str ("Expertise"),
          by simp [getFallbackContent, hl], rfl⟩
      · exact ⟨.str ("Consulting"), .str ("Strategy"), .str ("Implementation"), .str ("Expertise"),
          by simp [getFallbackContent, hl], rfl⟩
  · intro o2 n2 htop hlang
    cases hl : options.language.getD Language.de <;>
      simp [getFallbackContent, ← htop, ← hlang, hl]

/-- Witness for C10 at a concrete German request. -/
theorem fallback_shape_witness :
    (getFallbackContent sampleOptions 0).title =
      .str (sampleOptions.topic ++ " - Professionelle Beratung") :=
  ((fallback_shape sampleOptions 0).1 (Or.inl rfl))

end WissenHandeln
